import Mathlib

/-!
# Verification of the real-time log error alert pipeline

A shallow embedding of the core of the `real-time-error-alert` repository:

* `src/log_watcher_component.py` — `LogFileHandler` (file tailing, line
  classification, error-record extraction);
* `src/notification_manager.py` — `RateLimiter`, `NotificationManager`
  (rate-limited fan-out to email/Slack sinks).

Text is modelled as `List Char` (the sources open files in text mode and the
monitored content is single-byte, so byte offsets and character counts agree).
Wall-clock time is modelled as `ℚ` (`time.time()` values). Python exceptions
are modelled with `Except`.
-/

namespace LogMonitor

/-! ## Generic string helpers (Python `str` methods used by the source) -/

/-- Python `str.strip()`: drop leading and trailing whitespace. -/
def trimL (l : List Char) : List Char :=
  ((l.dropWhile Char.isWhitespace).reverse.dropWhile Char.isWhitespace).reverse

/-- Python `str.split(sep)` for a one-character separator: split on every
occurrence, keeping empty fragments (`"".split` gives `[""]`,
`"a\n".split` gives `["a", ""]`). -/
def splitOnChar (sep : Char) : List Char → List (List Char)
  | [] => [[]]
  | c :: cs =>
    let r := splitOnChar sep cs
    if c = sep then [] :: r
    else
      match r with
      | [] => [[c]]
      | f :: rest => (c :: f) :: rest

/-- Python `str.strip(ch)` for a single character: drop that character from
both ends. -/
def stripChar (ch : Char) (l : List Char) : List Char :=
  ((l.dropWhile (· == ch)).reverse.dropWhile (· == ch)).reverse

/-- Python `str.lower()`. -/
def lowerL (l : List Char) : List Char := l.map Char.toLower

/-! ## FileTailer: `LogFileHandler` state and change-event handling

`LogFileHandler.__init__` stores `last_position = os.path.getsize(path)`;
`on_modified` recomputes the size, resets the position on truncation, and
reads/processes the delta (`src/log_watcher_component.py:31-131`). -/

/-- The mutable state of `LogFileHandler` relevant to tailing:
`self.last_position`. -/
structure TailerState where
  lastPosition : Nat
deriving DecidableEq, Repr

/-- `LogFileHandler.__init__`: `self.last_position = self._get_file_size()`,
given the file's content at construction time. -/
def initTailer (content : List Char) : TailerState :=
  ⟨content.length⟩

/-- The line-processing pipeline of `_read_new_content` applied to the read
buffer `new_content`:

```python
if new_content.strip():
    lines = new_content.strip().split('\n')
    for line in lines:
        if line.strip():
            self._process_log_line(line)
```

Returns the list of lines handed to `_process_log_line`, in order. -/
def emittedLines (newContent : List Char) : List (List Char) :=
  if (trimL newContent).isEmpty then []
  else (splitOnChar '\n' (trimL newContent)).filter (fun l => !(trimL l).isEmpty)

/-- `LogFileHandler.on_modified` for an event on the watched file, given the
file's content at the time of the event. Returns the updated state and the
lines emitted to `_process_log_line`:

```python
current_size = self._get_file_size()
if current_size < self.last_position:
    self.last_position = 0
if current_size <= self.last_position:
    return
self._read_new_content(current_size)
```

and inside `_read_new_content`: seek to `last_position`, read
`current_size - last_position` characters, set `last_position = current_size`,
then process the buffer with the `emittedLines` pipeline. -/
def onModified (st : TailerState) (content : List Char) : TailerState × List (List Char) :=
  let currentSize := content.length
  let pos := if currentSize < st.lastPosition then 0 else st.lastPosition
  if currentSize ≤ pos then (⟨pos⟩, [])
  else (⟨currentSize⟩, emittedLines ((content.drop pos).take (currentSize - pos)))

/-- A run of the watcher: starting from a state and the current file content,
repeatedly append a chunk to the file and deliver a change event. An empty
chunk models a spurious event; concatenating two appends before one event
models batched modifications — so every append/event interleaving is covered.
Returns the final (state, content) and all lines emitted during the run. -/
def runAppends : TailerState × List Char → List (List Char) → (TailerState × List Char) × List (List Char)
  | p, [] => (p, [])
  | (st, content), chunk :: rest =>
    let content' := content ++ chunk
    let step := onModified st content'
    let tail := runAppends (step.1, content') rest
    (tail.1, step.2 ++ tail.2)

/-! ## PatternSet: keyword compilation and first-match classification

`LogFileHandler.__init__` compiles each keyword with
`re.compile(keyword, re.IGNORECASE)`; `_process_log_line` walks
`zip(self.error_patterns, self.error_keywords)` and stops at the first
pattern whose `search` succeeds (`src/log_watcher_component.py:48,146-158`).
A compiled pattern is abstracted as a Boolean matcher on lines. -/

/-- Whether `needle` occurs as a contiguous sublist of `hay`. -/
def isSubstring (needle : List Char) : List Char → Bool
  | [] => needle.isEmpty
  | c :: rest => needle.isPrefixOf (c :: rest) || isSubstring needle rest

/-- The matcher produced by `re.compile(keyword, re.IGNORECASE)` for a keyword
without regex metacharacters: case-insensitive substring search. -/
def mkPattern (kw : List Char) (line : List Char) : Bool :=
  isSubstring (lowerL kw) (lowerL line)

/-- The loop of `_process_log_line` over `zip(error_patterns, error_keywords)`:
return the keyword paired with the first matcher that accepts the line. -/
def findMatch : List ((List Char → Bool) × List Char) → List Char → Option (List Char)
  | [], _ => none
  | pk :: rest, line => if pk.1 line then some pk.2 else findMatch rest line

/-- The pattern/keyword pairs held by a handler built from `error_keywords`. -/
def keywordPairs (keywords : List (List Char)) : List ((List Char → Bool) × List Char) :=
  keywords.map (fun kw => (mkPattern kw, kw))

/-! ## ErrorExtractor: `_extract_error_info`
(`src/log_watcher_component.py:160-224`) -/

/-- The dict returned by `_extract_error_info` (`rawLine` models the `'line'`
key; the spec calls it `rawLine`). -/
structure ErrorRecord where
  timestamp : List Char
  level : List Char
  message : List Char
  rawLine : List Char
  matched_keyword : List Char
  detected_at : List Char
deriving DecidableEq, Repr

/-- Whether a list of characters is exactly of the shape
`\d{4}-\d{2}-\d{2} \d{2}:\d{2}:\d{2}` (19 characters, digits at the digit
positions). -/
def tsShape (l : List Char) : Bool :=
  match l with
  | [y1, y2, y3, y4, s1, m1, m2, s2, d1, d2, s3, h1, h2, s4, n1, n2, s5, c1, c2] =>
    y1.isDigit && y2.isDigit && y3.isDigit && y4.isDigit && s1 == '-' &&
    m1.isDigit && m2.isDigit && s2 == '-' && d1.isDigit && d2.isDigit && s3 == ' ' &&
    h1.isDigit && h2.isDigit && s4 == ':' && n1.isDigit && n2.isDigit && s5 == ':' &&
    c1.isDigit && c2.isDigit
  | _ => false

/-- Match of the fixed-length pattern
`(\d{4}-\d{2}-\d{2} \d{2}:\d{2}:\d{2})` at the start of `l`, returning
`group(1)`. -/
def matchTimestampAt (l : List Char) : Option (List Char) :=
  if tsShape (l.take 19) then some (l.take 19) else none

/-- `re.search` of the first timestamp pattern: leftmost match (the pattern has
fixed length, so leftmost match is the first starting position whose next
19 characters have the shape). -/
def searchTimestamp : List Char → Option (List Char)
  | [] => none
  | c :: rest =>
    match matchTimestampAt (c :: rest) with
    | some t => some t
    | none => searchTimestamp rest

/-- Match of `\[(\d{4}-\d{2}-\d{2} \d{2}:\d{2}:\d{2})\]` at the start of `l`,
returning `group(1)`. -/
def matchBracketedAt (l : List Char) : Option (List Char) :=
  match l with
  | '[' :: rest =>
    if tsShape (rest.take 19) &&
        (match rest.drop 19 with | ']' :: _ => true | _ => false)
    then some (rest.take 19) else none
  | _ => none

/-- `re.search` of the bracketed timestamp pattern. -/
def searchBracketed : List Char → Option (List Char)
  | [] => none
  | c :: rest =>
    match matchBracketedAt (c :: rest) with
    | some t => some t
    | none => searchBracketed rest

/-- Word character for the regex `\b` boundary (`\w`): ASCII letter, digit or
underscore — the level tokens are all ASCII letters. -/
def isWordChar (c : Char) : Bool := c.isAlphanum || c == '_'

/-- Whether token `tok` matches at the start of `l`, ignoring case. -/
def isPrefixCI : List Char → List Char → Bool
  | [], _ => true
  | _ :: _, [] => false
  | t :: ts, c :: cs => (t.toLower == c.toLower) && isPrefixCI ts cs

/-- The `\b` after an alternative of length `tok.length` placed at the start of
`l`: end of input, or a non-word character follows. -/
def boundaryAfter (tok l : List Char) : Bool :=
  match l.drop tok.length with
  | [] => true
  | c :: _ => !(isWordChar c)

/-- Try the regex alternatives in order at the current position (Python's
alternation semantics: first alternative that matches, with its trailing
`\b`, wins). Returns the canonical (uppercase) token: the matched text is the
token up to case, and the source applies `.upper()` to `group(1)`. -/
def tryTokensAt : List (List Char) → List Char → Option (List Char)
  | [], _ => none
  | tok :: toks, l =>
    if isPrefixCI tok l && boundaryAfter tok l then some tok else tryTokensAt toks l

/-- `re.search(r'\b(TOK1|TOK2|...)\b', line, re.IGNORECASE)`: scan left to
right; at each position whose left side is a word boundary try the
alternatives in order. `prev` is the character before the current position
(none at the start of the line). -/
def searchToken (toks : List (List Char)) : Option Char → List Char → Option (List Char)
  | _, [] => none
  | prev, c :: rest =>
    let bdry := match prev with | none => true | some p => !(isWordChar p)
    match (if bdry then tryTokensAt toks (c :: rest) else none) with
    | some tok => some tok
    | none => searchToken toks (some c) rest

/-- The alternatives of the first level pattern
`r'\b(ERROR|CRITICAL|FATAL|EXCEPTION|FAIL)\b'`. -/
def severeTokens : List (List Char) :=
  ["ERROR".data, "CRITICAL".data, "FATAL".data, "EXCEPTION".data, "FAIL".data]

/-- The alternatives of the second level pattern `r'\b(WARN|WARNING)\b'`. -/
def warnTokens : List (List Char) :=
  ["WARN".data, "WARNING".data]

/-- Python `needle in hay` / `hay.split(needle, 1)` for a non-empty needle:
the first (case-sensitive) occurrence, returning the parts before and after
it, or `none` when the needle does not occur. -/
def splitFirst (needle : List Char) : List Char → Option (List Char × List Char)
  | [] => none
  | c :: rest =>
    if needle.isPrefixOf (c :: rest) then some ([], (c :: rest).drop needle.length)
    else
      match splitFirst needle rest with
      | some pq => some (c :: pq.1, pq.2)
      | none => none

/-- `LogFileHandler._extract_error_info(line, matched_keyword)`. The two reads
of the wall clock are passed in: `nowTs` is `datetime.now().strftime("%Y-%m-%d
%H:%M:%S")` (used when no timestamp is found) and `nowIso` is
`datetime.now().isoformat()` (the `detected_at` field). -/
def extractErrorInfo (nowTs nowIso : List Char) (line matchedKeyword : List Char) :
    ErrorRecord :=
  let extractedTimestamp :=
    match searchTimestamp line with
    | some t => t
    | none =>
      match searchBracketed line with
      | some t => t
      | none => nowTs
  let extractedLevel :=
    match searchToken severeTokens none line with
    | some t => t
    | none =>
      match searchToken warnTokens none line with
      | some t => t
      | none => "UNKNOWN".data
  let message :=
    match splitFirst extractedLevel line with
    | some pq => trimL (stripChar ':' pq.2)
    | none => line
  { timestamp := extractedTimestamp
    level := extractedLevel
    message := trimL message
    rawLine := trimL line
    matched_keyword := matchedKeyword
    detected_at := nowIso }

/-! ## Line processing with a fallible detection callback

`_process_log_line` has no exception handler of its own: an exception raised
by `self.callback(error_info)` propagates out of the `for line in lines:` loop
of `_read_new_content` and is caught by the `try/except` that wraps the whole
loop (`src/log_watcher_component.py:110-131`); `on_modified` has a further
outer `try/except` (`:84-101`). The callback is modelled as
`ErrorRecord → Except ε Unit`. -/

/-- `_process_log_line(line)` with a fallible callback: the first matching
pattern (if any) triggers one extraction and one callback invocation; a raised
exception propagates. Returns the records the callback was invoked on, and
the escaping exception, if any. -/
def processLogLine {ε : Type} (pairs : List ((List Char → Bool) × List Char))
    (cb : ErrorRecord → Except ε Unit) (nowTs nowIso : List Char) (line : List Char) :
    List ErrorRecord × Option ε :=
  match findMatch pairs line with
  | none => ([], none)
  | some kw =>
    let r := extractErrorInfo nowTs nowIso line kw
    match cb r with
    | .ok _ => ([r], none)
    | .error e => ([r], some e)

/-- The `for line in lines:` loop of `_read_new_content`: blank lines are
skipped; an exception from `_process_log_line` aborts the rest of the loop
(it is caught only by the `try/except` around the loop). Returns the records
the callback was invoked on, and the exception that escaped the loop, if
any. -/
def processBatch {ε : Type} (pairs : List ((List Char → Bool) × List Char))
    (cb : ErrorRecord → Except ε Unit) (nowTs nowIso : List Char) :
    List (List Char) → List ErrorRecord × Option ε
  | [] => ([], none)
  | line :: rest =>
    if (trimL line).isEmpty then processBatch pairs cb nowTs nowIso rest
    else
      let step := processLogLine pairs cb nowTs nowIso line
      match step.2 with
      | some e => (step.1, some e)
      | none =>
        let tail := processBatch pairs cb nowTs nowIso rest
        (step.1 ++ tail.1, tail.2)

/-- `_read_new_content(current_size)` with a fallible callback, starting from
the (possibly truncation-reset) position `st.lastPosition`: read the delta,
advance the position, process the lines; the surrounding `try/except` swallows
any exception that escapes the loop, so the function always returns normally.
Note the position is advanced before the loop runs. -/
def readNewContentE {ε : Type} (st : TailerState) (content : List Char)
    (pairs : List ((List Char → Bool) × List Char))
    (cb : ErrorRecord → Except ε Unit) (nowTs nowIso : List Char) :
    TailerState × List ErrorRecord :=
  let pos := st.lastPosition
  let buffer := (content.drop pos).take (content.length - pos)
  let st' : TailerState := ⟨content.length⟩
  if (trimL buffer).isEmpty then (st', [])
  else
    let run := processBatch pairs cb nowTs nowIso (splitOnChar '\n' (trimL buffer))
    (st', run.1)

/-- `on_modified` with a fallible callback: truncation/no-op logic as in
`onModified`, then `readNewContentE`. Always returns normally (the watch
mechanism never sees the callback's exception). -/
def onModifiedE {ε : Type} (st : TailerState) (content : List Char)
    (pairs : List ((List Char → Bool) × List Char))
    (cb : ErrorRecord → Except ε Unit) (nowTs nowIso : List Char) :
    TailerState × List ErrorRecord :=
  let currentSize := content.length
  let pos := if currentSize < st.lastPosition then 0 else st.lastPosition
  if currentSize ≤ pos then (⟨pos⟩, [])
  else readNewContentE ⟨pos⟩ content pairs cb nowTs nowIso

/-- The records of the matching non-blank lines of a batch, in file order —
what the callback would be invoked on if no line failed. -/
def matchedRecords (pairs : List ((List Char → Bool) × List Char))
    (nowTs nowIso : List Char) : List (List Char) → List ErrorRecord
  | [] => []
  | line :: rest =>
    if (trimL line).isEmpty then matchedRecords pairs nowTs nowIso rest
    else
      match findMatch pairs line with
      | none => matchedRecords pairs nowTs nowIso rest
      | some kw => extractErrorInfo nowTs nowIso line kw :: matchedRecords pairs nowTs nowIso rest

/-- Cut a record list at the first record the callback fails on: everything
before it, plus the failing record itself (its callback was invoked and
raised). -/
def invokedUpToFailure {ε : Type} (cb : ErrorRecord → Except ε Unit) :
    List ErrorRecord → List ErrorRecord
  | [] => []
  | r :: rs =>
    match cb r with
    | .ok _ => r :: invokedUpToFailure cb rs
    | .error _ => [r]

/-! ## RateLimiter (`src/notification_manager.py:23-65`)

Wall-clock instants (`time.time()`) are modelled as `ℚ`. -/

/-- The state of `RateLimiter`: `self.min_interval` and
`self.last_notification_time` (initialized to `0`). -/
structure RateLimiterState where
  min_interval : ℚ
  last_notification_time : ℚ
deriving DecidableEq

/-- `RateLimiter.__init__(min_interval_seconds)`. -/
def initRateLimiter (minIntervalSeconds : ℚ) : RateLimiterState :=
  ⟨minIntervalSeconds, 0⟩

/-- `RateLimiter.should_send_notification()` at wall-clock instant `now`:

```python
time_since_last = current_time - self.last_notification_time
if time_since_last >= self.min_interval:
    self.last_notification_time = current_time
    return True
return False
``` -/
def shouldSendNotification (st : RateLimiterState) (now : ℚ) : Bool × RateLimiterState :=
  if st.min_interval ≤ now - st.last_notification_time
  then (true, ⟨st.min_interval, now⟩)
  else (false, st)

/-- `RateLimiter.reset()`. -/
def resetRateLimiter (st : RateLimiterState) : RateLimiterState :=
  ⟨st.min_interval, 0⟩

/-- A sequence of `should_send_notification` calls at the given instants:
the list of returned Booleans and the final state. -/
def runCalls (st : RateLimiterState) : List ℚ → List Bool × RateLimiterState
  | [] => ([], st)
  | t :: ts =>
    let step := shouldSendNotification st t
    let tail := runCalls step.2 ts
    (step.1 :: tail.1, tail.2)

/-! ## NotificationManager (`src/notification_manager.py:418-542`)

`EmailNotifier.send_alert` / `SlackNotifier.send_alert` wrap the whole
delivery in `try/except` and return `False` on any exception
(`:99-121, :306-338`); a sink's raw delivery action is therefore modelled as
`ErrorRecord → Except ε Unit`, and an unconfigured channel as `none`. -/

/-- The `try: ...; return True / except: return False` wrapper of a sink's
`send_alert`. -/
def sendAlertCaught {ε : Type} (raw : ErrorRecord → Except ε Unit) (r : ErrorRecord) :
    Bool :=
  match raw r with
  | .ok _ => true
  | .error _ => false

/-- The fields of `NotificationManager` used by `send_all_alerts`. -/
structure NotificationManager (ε : Type) where
  rate_limiter : RateLimiterState
  email_notifier : Option (ErrorRecord → Except ε Unit)
  slack_notifier : Option (ErrorRecord → Except ε Unit)

/-- `NotificationManager.send_email_alert`: skip (returning `False`) when no
email notifier is configured. -/
def sendEmailAlert {ε : Type} (m : NotificationManager ε) (r : ErrorRecord) : Bool :=
  match m.email_notifier with
  | some raw => sendAlertCaught raw r
  | none => false

/-- `NotificationManager.send_slack_alert`. -/
def sendSlackAlert {ε : Type} (m : NotificationManager ε) (r : ErrorRecord) : Bool :=
  match m.slack_notifier with
  | some raw => sendAlertCaught raw r
  | none => false

/-- The result dict of `send_all_alerts`. -/
structure SendResults where
  email_sent : Bool
  slack_sent : Bool
  any_sent : Bool
deriving DecidableEq, Repr

/-- `NotificationManager.send_all_alerts(error_info)` at instant `now`:
check the rate limiter first (which consumes the permit when granted), then
attempt email, then Slack, then aggregate `any_sent`. Returns the results and
the rate limiter's post-call state. -/
def sendAllAlerts {ε : Type} (m : NotificationManager ε) (now : ℚ) (r : ErrorRecord) :
    SendResults × RateLimiterState :=
  let gate := shouldSendNotification m.rate_limiter now
  if gate.1 then
    let e := sendEmailAlert m r
    let s := sendSlackAlert m r
    ({ email_sent := e, slack_sent := s, any_sent := e || s }, gate.2)
  else
    ({ email_sent := false, slack_sent := false, any_sent := false }, gate.2)

/-! ## Spec-side comparison definitions -/

/-- The emission pipeline as worded by the specification (§4.3): split the
read buffer on newline boundaries, discard a trailing empty fragment, discard
blank lines, emit the rest in order. Stated from the spec's words, for
comparison with `emittedLines`, which is translated from the code. -/
def specSplitLines (buffer : List Char) : List (List Char) :=
  let frags := splitOnChar '\n' buffer
  let frags' := if frags.getLast? = some [] then frags.dropLast else frags
  frags'.filter (fun l => !(trimL l).isEmpty)

/-- Numeric value of a digit character. -/
def digitVal (c : Char) : Nat := c.toNat - '0'.toNat

/-- Gregorian leap year. -/
def isLeapYear (y : Nat) : Bool :=
  (y % 4 == 0 && y % 100 != 0) || (y % 400 == 0)

/-- Days in a month of the Gregorian calendar. -/
def daysInMonth (y m : Nat) : Nat :=
  if m == 2 then (if isLeapYear y then 29 else 28)
  else if m == 4 || m == 6 || m == 9 || m == 11 then 30
  else 31

/-- Stated from the spec's words ("parseable back to a valid calendar
date-time in the form YYYY-MM-DD HH:MM:SS"): the characters form a 19-character
`YYYY-MM-DD HH:MM:SS` string whose fields denote an actual calendar
date-time. -/
def validCalendarTimestamp (l : List Char) : Bool :=
  tsShape l &&
  match l with
  | [y1, y2, y3, y4, _, m1, m2, _, d1, d2, _, h1, h2, _, n1, n2, _, s1, s2] =>
    let y := digitVal y1 * 1000 + digitVal y2 * 100 + digitVal y3 * 10 + digitVal y4
    let mo := digitVal m1 * 10 + digitVal m2
    let d := digitVal d1 * 10 + digitVal d2
    let h := digitVal h1 * 10 + digitVal h2
    let mi := digitVal n1 * 10 + digitVal n2
    let s := digitVal s1 * 10 + digitVal s2
    1 ≤ mo && mo ≤ 12 && 1 ≤ d && d ≤ daysInMonth y mo &&
    h ≤ 23 && mi ≤ 59 && s ≤ 59
  | _ => false

/-! ## Helper lemmas -/

/-- `emittedLines` written without its (redundant) outer emptiness guard. -/
theorem emittedLines_eq (l : List Char) :
    emittedLines l = (splitOnChar '\n' (trimL l)).filter (fun s => !(trimL s).isEmpty) := by
  unfold emittedLines
  by_cases h : (trimL l).isEmpty
  · rw [if_pos h]
    rw [List.isEmpty_iff.mp h]
    rfl
  · rw [if_neg h]

theorem matchTimestampAt_shape {l t : List Char} (h : matchTimestampAt l = some t) :
    tsShape t = true := by
  unfold matchTimestampAt at h
  split at h
  · cases h
    assumption
  · cases h

theorem searchTimestamp_shape {l t : List Char} (h : searchTimestamp l = some t) :
    tsShape t = true := by
  induction l with
  | nil => simp [searchTimestamp] at h
  | cons c rest ih =>
    rw [searchTimestamp] at h
    cases hm : matchTimestampAt (c :: rest) with
    | some u => rw [hm] at h; cases h; exact matchTimestampAt_shape hm
    | none => rw [hm] at h; exact ih h

theorem matchBracketedAt_shape {l t : List Char} (h : matchBracketedAt l = some t) :
    tsShape t = true := by
  unfold matchBracketedAt at h
  split at h
  · split at h
    · cases h
      rename_i hcond
      exact (Bool.and_eq_true _ _ |>.mp hcond).1
    · cases h
  · cases h

theorem searchBracketed_shape {l t : List Char} (h : searchBracketed l = some t) :
    tsShape t = true := by
  induction l with
  | nil => simp [searchBracketed] at h
  | cons c rest ih =>
    rw [searchBracketed] at h
    cases hm : matchBracketedAt (c :: rest) with
    | some u => rw [hm] at h; cases h; exact matchBracketedAt_shape hm
    | none => rw [hm] at h; exact ih h

/-! ## Claim theorems -/

/-- C2. Truncation invariant: whenever `on_modified` finds the current file
size strictly below `lastReadOffset`, the offset is reset to `0` in that same
invocation, the read starts at offset `0`, and the lines emitted are exactly
those of the entire post-truncation content (no replay of pre-truncation
bytes — only `content` is read — and no loss: the whole of `content` goes
through the emission pipeline); afterwards the offset is the post-truncation
size. -/
theorem C2_truncation_reset (st : TailerState) (content : List Char)
    (h : content.length < st.lastPosition) :
    onModified st content = (⟨content.length⟩, emittedLines content) := by
  unfold onModified
  simp only [if_pos h]
  cases content with
  | nil => rfl
  | cons c cs =>
    rw [if_neg (by simp)]
    simp [List.take_length]

/-- Witness for C2 at a concrete truncated file. -/
theorem C2_truncation_reset_witness :
    onModified ⟨100⟩ "fresh line\n".data =
      (⟨"fresh line\n".data.length⟩, emittedLines "fresh line\n".data) :=
  C2_truncation_reset ⟨100⟩ "fresh line\n".data (by decide)

/-- C9 counterexample: with `lastReadOffset = 0` and new content `" x\ndef"`
(a buffer that does not end in a newline), the handler emits `["x", "def"]`:
the partial final line `"def"` IS emitted (the claim says no partial final
line is emitted), and the emitted lines differ from the claim's
split/drop-trailing-empty/filter pipeline, which would emit `[" x", "def"]` —
the whole-buffer `strip()` removed the first line's leading space. -/
theorem C9_counterexample :
    (onModified ⟨0⟩ " x\ndef".data).2 = ["x".data, "def".data] ∧
    (onModified ⟨0⟩ " x\ndef".data).2 ≠ specSplitLines " x\ndef".data ∧
    specSplitLines " x\ndef".data = [" x".data, "def".data] ∧
    " x\ndef".data.getLast? ≠ some '\n' ∧
    "def".data ∈ (onModified ⟨0⟩ " x\ndef".data).2 := by
  decide

/-- C9 as amended: when the current size exceeds `lastReadOffset`, the handler
reads exactly `currentSize - lastReadOffset` characters from
`lastReadOffset` (the read window is the whole delta), advances the offset to
`currentSize`, strips the read buffer of leading and trailing whitespace,
splits the stripped buffer on newline boundaries, discards blank lines, and
emits each remaining non-blank line in file order — a final line not
terminated by a newline is emitted as well, and the whole-buffer strip trims
the outer whitespace of the first and last emitted lines. -/
theorem C9_emission_pipeline (st : TailerState) (content : List Char)
    (h : st.lastPosition < content.length) :
    onModified st content =
      (⟨content.length⟩,
        (splitOnChar '\n' (trimL (content.drop st.lastPosition))).filter
          (fun s => !(trimL s).isEmpty)) ∧
    (content.drop st.lastPosition).take (content.length - st.lastPosition) =
      content.drop st.lastPosition ∧
    ∀ s ∈ (onModified st content).2, (trimL s).isEmpty = false := by
  have hread : (content.drop st.lastPosition).take (content.length - st.lastPosition) =
      content.drop st.lastPosition := by
    rw [← List.length_drop st.lastPosition content]
    exact List.take_length _
  have hstep : onModified st content =
      (⟨content.length⟩,
        (splitOnChar '\n' (trimL (content.drop st.lastPosition))).filter
          (fun s => !(trimL s).isEmpty)) := by
    have h1 : ¬(content.length < st.lastPosition) := by omega
    have h2 : ¬(content.length ≤ st.lastPosition) := by omega
    unfold onModified
    simp only [if_neg h1, if_neg h2, hread, emittedLines_eq]
  refine ⟨hstep, hread, ?_⟩
  intro s hs
  rw [hstep] at hs
  simpa using (List.mem_filter.mp hs).2

/-- Witness for C9's amended theorem at a concrete append. -/
theorem C9_emission_pipeline_witness :
    onModified ⟨3⟩ "ab\n x\ndef".data =
      (⟨"ab\n x\ndef".data.length⟩,
        (splitOnChar '\n' (trimL ("ab\n x\ndef".data.drop 3))).filter
          (fun s => !(trimL s).isEmpty)) ∧
    ("ab\n x\ndef".data.drop 3).take ("ab\n x\ndef".data.length - 3) =
      "ab\n x\ndef".data.drop 3 ∧
    ∀ s ∈ (onModified ⟨3⟩ "ab\n x\ndef".data).2, (trimL s).isEmpty = false :=
  C9_emission_pipeline ⟨3⟩ "ab\n x\ndef".data (by decide)

/-- C6. The extractor scenario: on the line
`"2024-01-15 14:30:25 ERROR: Database connection failed"` with matched
keyword `"ERROR"`, the extractor yields timestamp `"2024-01-15 14:30:25"`,
level `"ERROR"`, message `"Database connection failed"` and matched keyword
`"ERROR"` — for any wall-clock readings. -/
theorem C6_extractor_scenario (nowTs nowIso : List Char) :
    extractErrorInfo nowTs nowIso
        "2024-01-15 14:30:25 ERROR: Database connection failed".data "ERROR".data =
      { timestamp := "2024-01-15 14:30:25".data
        level := "ERROR".data
        message := "Database connection failed".data
        rawLine := "2024-01-15 14:30:25 ERROR: Database connection failed".data
        matched_keyword := "ERROR".data
        detected_at := nowIso } := by
  rfl

/-- C5. First-match precedence: `_process_log_line` tests the pattern/keyword
pairs in configured order and reports the first whose pattern matches
(`findMatch` coincides with `List.find?` on the matching predicate); the
callback is invoked at most once per line; and with keywords
`["ERROR", "FAIL"]` and a line containing both tokens, the reported keyword is
`"ERROR"`. -/
theorem C5_first_match_precedence {ε : Type}
    (pairs : List ((List Char → Bool) × List Char)) (line : List Char)
    (cb : ErrorRecord → Except ε Unit) (nowTs nowIso : List Char) :
    findMatch pairs line = (pairs.find? (fun pk => pk.1 line)).map Prod.snd ∧
    (processLogLine pairs cb nowTs nowIso line).1.length ≤ 1 ∧
    findMatch (keywordPairs ["ERROR".data, "FAIL".data])
        "2024-01-15 14:30:25 ERROR: update FAILED".data = some "ERROR".data := by
  refine ⟨?_, ?_, by decide⟩
  · induction pairs with
    | nil => rfl
    | cons pk rest ih =>
      by_cases hm : pk.1 line
      · rw [findMatch, if_pos hm, List.find?_cons_of_pos _ (by simpa using hm)]
        rfl
      · rw [findMatch, if_neg hm, List.find?_cons_of_neg _ (by simpa using hm)]
        exact ih
  · unfold processLogLine
    cases findMatch pairs line with
    | none => simp
    | some kw =>
      simp only
      cases cb (extractErrorInfo nowTs nowIso line kw) <;> simp

/-- All permit checks made strictly within `min_interval` of the last grant
are denied and leave the state unchanged. -/
theorem runCalls_all_denied (S t0 : ℚ) (ts : List ℚ)
    (h : ∀ u ∈ ts, u - t0 < S) :
    runCalls ⟨S, t0⟩ ts = (List.replicate ts.length false, ⟨S, t0⟩) := by
  induction ts with
  | nil => rfl
  | cons u us ih =>
    have hdeny : shouldSendNotification ⟨S, t0⟩ u = (false, ⟨S, t0⟩) := by
      unfold shouldSendNotification
      rw [if_neg (not_le.mpr (h u (by simp)))]
    rw [runCalls, hdeny]
    simp only [List.length_cons, List.replicate_succ]
    rw [ih (fun v hv => h v (by simp [hv]))]

/-- From any state, permit checks whose instants all lie in a window shorter
than `min_interval` are granted at most once. -/
theorem runCalls_at_most_one (S lo w : ℚ) (hw : w < S) :
    ∀ (l : List ℚ) (st : RateLimiterState), st.min_interval = S →
      (∀ u ∈ l, lo ≤ u ∧ u ≤ lo + w) →
      (runCalls st l).1.count true ≤ 1 := by
  intro l
  induction l with
  | nil =>
    intro st _ _
    simp [runCalls]
  | cons t ts ih =>
    intro st hS hmem
    by_cases hg : st.min_interval ≤ t - st.last_notification_time
    · have hgrant : shouldSendNotification st t = (true, ⟨st.min_interval, t⟩) := by
        unfold shouldSendNotification
        rw [if_pos hg]
      have hall : ∀ u ∈ ts, u - t < st.min_interval := by
        intro u hu
        have h1 := hmem u (by simp [hu])
        have h2 := (hmem t (by simp)).1
        have h3 : u - t ≤ w := by linarith [h1.2]
        rw [hS]
        linarith
      rw [runCalls, hgrant]
      simp [runCalls_all_denied st.min_interval t ts hall, List.count_replicate]
    · have hdeny : shouldSendNotification st t = (false, st) := by
        unfold shouldSendNotification
        rw [if_neg hg]
      have htail := ih st hS (fun u hu => hmem u (by simp [hu]))
      rw [runCalls, hdeny]
      simpa [List.count_cons] using htail

/-- C1. Rate-limit correctness: starting from a state whose interval has
elapsed (`minIntervalSeconds = S ≤ t - lastSentAt`, as with the initial state
`lastSentAt = 0` at any realistic wall-clock instant), a sequence of permit
checks at `t` followed by checks all within a window shorter than `S` grants
exactly the first one (`true` then all `false`), and the granting call sets
`lastSentAt := t`; from any state, checks confined to a window shorter than
`S` are granted at most once; a further check at least `S` after the granted
one is granted again (and records its own time); a denied check leaves the
state unchanged. -/
theorem C1_rate_limit_correctness (st : RateLimiterState) (t : ℚ) (ts : List ℚ)
    (hfirst : st.min_interval ≤ t - st.last_notification_time)
    (hwin : ∀ u ∈ ts, u - t < st.min_interval) :
    runCalls st (t :: ts) =
      (true :: List.replicate ts.length false, ⟨st.min_interval, t⟩) ∧
    (∀ (st' : RateLimiterState) (lo w : ℚ) (l : List ℚ),
      st'.min_interval = st.min_interval → w < st.min_interval →
      (∀ u ∈ l, lo ≤ u ∧ u ≤ lo + w) →
      (runCalls st' l).1.count true ≤ 1) ∧
    (∀ t', st.min_interval ≤ t' - t →
      shouldSendNotification ⟨st.min_interval, t⟩ t' = (true, ⟨st.min_interval, t'⟩)) ∧
    (∀ st' now, (shouldSendNotification st' now).1 = false →
      (shouldSendNotification st' now).2 = st') := by
  refine ⟨?_, ?_, ?_, ?_⟩
  · have hgrant : shouldSendNotification st t = (true, ⟨st.min_interval, t⟩) := by
      unfold shouldSendNotification
      rw [if_pos hfirst]
    rw [runCalls, hgrant]
    simp [runCalls_all_denied st.min_interval t ts hwin]
  · intro st' lo w l h1 h2 h3
    exact runCalls_at_most_one st.min_interval lo w h2 l st' h1 h3
  · intro t' ht'
    unfold shouldSendNotification
    rw [if_pos ht']
  · intro st' now hfalse
    unfold shouldSendNotification at hfalse ⊢
    by_cases hc : st'.min_interval ≤ now - st'.last_notification_time
    · rw [if_pos hc] at hfalse
      cases hfalse
    · rw [if_neg hc]

/-- Witness for C1: interval 300, fresh limiter, calls at 1000, 1100, 1200
(window 200 < 300): only the first is granted; a call at 1500 is granted
again. -/
theorem C1_rate_limit_correctness_witness :
    runCalls ⟨300, 0⟩ [1000, 1100, 1200] = ([true, false, false], ⟨300, 1000⟩) ∧
    shouldSendNotification ⟨300, 1000⟩ 1500 = (true, ⟨300, 1500⟩) := by
  have h := C1_rate_limit_correctness ⟨300, 0⟩ 1000 [1100, 1200]
    (by norm_num)
    (by intro u hu; fin_cases hu <;> norm_num)
  exact ⟨h.1, h.2.2.1 1500 (by norm_num)⟩

/-- C3 counterexample: keywords `["ERROR"]`, a three-line batch whose second
line's callback raises. Only the first two lines' callbacks run — the third
line of the same batch is never processed, although the claim says processing
continues with the next line of the batch. (The watch mechanism itself does
not crash, and the offset is still advanced to the batch's end.) -/
theorem C3_counterexample :
    ((onModifiedE ⟨0⟩ "ERROR one\nERROR two\nERROR three\n".data
        (keywordPairs ["ERROR".data])
        (fun r => if mkPattern "two".data r.rawLine then .error () else .ok ())
        "now".data "iso".data).2.map ErrorRecord.rawLine)
      = ["ERROR one".data, "ERROR two".data] ∧
    "ERROR three".data ∉
      ((onModifiedE ⟨0⟩ "ERROR one\nERROR two\nERROR three\n".data
          (keywordPairs ["ERROR".data])
          (fun r => if mkPattern "two".data r.rawLine then .error () else .ok ())
          "now".data "iso".data).2.map ErrorRecord.rawLine) ∧
    (onModifiedE ⟨0⟩ "ERROR one\nERROR two\nERROR three\n".data
        (keywordPairs ["ERROR".data])
        (fun r => if mkPattern "two".data r.rawLine then .error () else .ok ())
        "now".data "iso".data).1
      = ⟨"ERROR one\nERROR two\nERROR three\n".data.length⟩ := by
  decide

/-- Every prefix-up-to-failure of a record list is a prefix of that list. -/
theorem invokedUpToFailure_prefix {ε : Type} (cb : ErrorRecord → Except ε Unit) :
    ∀ rs : List ErrorRecord, invokedUpToFailure cb rs <+: rs := by
  intro rs
  induction rs with
  | nil => exact List.prefix_refl _
  | cons r rest ih =>
    rw [invokedUpToFailure]
    cases cb r with
    | ok _ => exact (List.prefix_cons_inj r).mpr ih
    | error e => exact ⟨rest, rfl⟩

/-- C3 as amended: an exception raised while processing a line is caught at
the batch level, not the line level. The callback is invoked exactly on the
matched records of the batch up to and including the first failing one — the
remaining lines of that batch are skipped (the invoked records are a prefix of
the batch's matched records) — but the watch mechanism does not crash: the
change handler still returns normally, with the same offset state as under
any other callback (`onModified`'s state), so subsequent change events are
processed normally. -/
theorem C3_batch_level_containment {ε : Type}
    (pairs : List ((List Char → Bool) × List Char))
    (cb : ErrorRecord → Except ε Unit) (nowTs nowIso : List Char)
    (st : TailerState) (content : List Char) (lines : List (List Char)) :
    (onModifiedE st content pairs cb nowTs nowIso).1 = (onModified st content).1 ∧
    (processBatch pairs cb nowTs nowIso lines).1 =
      invokedUpToFailure cb (matchedRecords pairs nowTs nowIso lines) ∧
    invokedUpToFailure cb (matchedRecords pairs nowTs nowIso lines) <+:
      matchedRecords pairs nowTs nowIso lines := by
  refine ⟨?_, ?_, invokedUpToFailure_prefix cb _⟩
  · simp only [onModifiedE, readNewContentE, onModified]
    by_cases h2 :
        content.length ≤ (if content.length < st.lastPosition then 0 else st.lastPosition)
    · simp only [if_pos h2]
    · simp only [if_neg h2]
      split <;> split <;> rfl
  · induction lines with
    | nil => rfl
    | cons line rest ih =>
      rw [processBatch, matchedRecords]
      by_cases hblank : (trimL line).isEmpty
      · simp only [if_pos hblank]
        exact ih
      · simp only [if_neg hblank, processLogLine]
        cases hfm : findMatch pairs line with
        | none => simpa using ih
        | some kw =>
          cases hcb : cb (extractErrorInfo nowTs nowIso line kw) with
          | ok u => simp [hcb, invokedUpToFailure, ih]
          | error e => simp [hcb, invokedUpToFailure]

/-- C4 counterexample: the timestamp regex checks digit positions, not
calendar validity. On the line `"2024-13-45 25:61:61 ERROR boom"` the
extractor returns timestamp `"2024-13-45 25:61:61"` — month 13, day 45,
hour 25 — which is not parseable back to a valid calendar date-time, and does
not equal the detection time either. -/
theorem C4_counterexample :
    (extractErrorInfo "2025-01-01 00:00:00".data "iso".data
        "2024-13-45 25:61:61 ERROR boom".data "ERROR".data).timestamp
      = "2024-13-45 25:61:61".data ∧
    validCalendarTimestamp
        (extractErrorInfo "2025-01-01 00:00:00".data "iso".data
          "2024-13-45 25:61:61 ERROR boom".data "ERROR".data).timestamp = false ∧
    (extractErrorInfo "2025-01-01 00:00:00".data "iso".data
        "2024-13-45 25:61:61 ERROR boom".data "ERROR".data).timestamp
      ≠ "2025-01-01 00:00:00".data := by
  decide

/-- C4 as amended: for every non-blank input line (the extractor is only
invoked on lines whose strip is non-empty), the returned record's `rawLine`
is non-empty, and its timestamp either has the syntactic shape
`YYYY-MM-DD HH:MM:SS` (digits in the digit positions — without calendar
validation, so out-of-range fields such as month 13 can occur) or equals the
detection wall-clock time. -/
theorem C4_timestamp_shape (nowTs nowIso line kw : List Char)
    (h : trimL line ≠ []) :
    (extractErrorInfo nowTs nowIso line kw).rawLine ≠ [] ∧
    (tsShape (extractErrorInfo nowTs nowIso line kw).timestamp = true ∨
      (extractErrorInfo nowTs nowIso line kw).timestamp = nowTs) := by
  constructor
  · simpa [extractErrorInfo] using h
  · simp only [extractErrorInfo]
    cases h1 : searchTimestamp line with
    | some t => exact Or.inl (searchTimestamp_shape h1)
    | none =>
      cases h2 : searchBracketed line with
      | some t => exact Or.inl (searchBracketed_shape h2)
      | none => exact Or.inr rfl

/-- Witness for C4's amended theorem on a line with no embedded timestamp:
the timestamp falls back to the detection time. -/
theorem C4_timestamp_shape_witness :
    (extractErrorInfo "2025-06-01 10:00:00".data "iso".data
        "hello ERROR world".data "ERROR".data).rawLine ≠ [] ∧
    (tsShape (extractErrorInfo "2025-06-01 10:00:00".data "iso".data
        "hello ERROR world".data "ERROR".data).timestamp = true ∨
      (extractErrorInfo "2025-06-01 10:00:00".data "iso".data
        "hello ERROR world".data "ERROR".data).timestamp
        = "2025-06-01 10:00:00".data) :=
  C4_timestamp_shape "2025-06-01 10:00:00".data "iso".data
    "hello ERROR world".data "ERROR".data (by decide)

/-- C7. Partial sink failure isolation: when the rate limiter grants the
permit, `send_all_alerts` computes `email_sent` and `slack_sent` from the two
sinks independently — each sink's `send_alert` converts its exceptions into
`False` instead of raising, the Slack attempt does not depend on the email
sink or its outcome — and `any_sent` is the logical OR of the per-sink
Booleans; in particular with a failing email sink and a succeeding Slack
sink, `any_sent = true`. -/
theorem C7_sink_failure_isolation {ε : Type} (m : NotificationManager ε)
    (now : ℚ) (r : ErrorRecord)
    (h : m.rate_limiter.min_interval ≤ now - m.rate_limiter.last_notification_time) :
    (sendAllAlerts m now r).1.email_sent = sendEmailAlert m r ∧
    (sendAllAlerts m now r).1.slack_sent = sendSlackAlert m r ∧
    (sendAllAlerts m now r).1.any_sent = (sendEmailAlert m r || sendSlackAlert m r) ∧
    (∀ em' : Option (ErrorRecord → Except ε Unit),
      (sendAllAlerts ⟨m.rate_limiter, em', m.slack_notifier⟩ now r).1.slack_sent =
        sendSlackAlert m r) ∧
    (∀ failSink okSink : ErrorRecord → Except ε Unit,
      (∀ x, sendAlertCaught failSink x = false) →
      (∀ x, sendAlertCaught okSink x = true) →
      (sendAllAlerts ⟨m.rate_limiter, some failSink, some okSink⟩ now r).1.any_sent
        = true) := by
  have hgate : shouldSendNotification m.rate_limiter now =
      (true, ⟨m.rate_limiter.min_interval, now⟩) := by
    unfold shouldSendNotification
    rw [if_pos h]
  refine ⟨?_, ?_, ?_, ?_, ?_⟩
  · simp [sendAllAlerts, hgate]
  · simp [sendAllAlerts, hgate]
  · simp [sendAllAlerts, hgate]
  · intro em'
    simp [sendAllAlerts, hgate, sendSlackAlert]
  · intro failSink okSink hfail hok
    simp [sendAllAlerts, hgate, sendEmailAlert, sendSlackAlert, hfail, hok]

/-- Witness for C7: a concrete manager whose email sink always raises and
whose Slack sink always succeeds still reports `any_sent = true`. -/
theorem C7_sink_failure_isolation_witness :
    (sendAllAlerts
        (⟨⟨300, 0⟩, some (fun _ => Except.error ()), some (fun _ => Except.ok ())⟩ :
          NotificationManager Unit)
        1000 ⟨[], [], [], [], [], []⟩).1.any_sent = true := by
  have h := C7_sink_failure_isolation
    (⟨⟨300, 0⟩, some (fun _ => Except.error ()), some (fun _ => Except.ok ())⟩ :
      NotificationManager Unit)
    1000 ⟨[], [], [], [], [], []⟩ (by norm_num)
  exact h.2.2.2.2 (fun _ => Except.error ()) (fun _ => Except.ok ())
    (fun x => rfl) (fun x => rfl)

/-- C10. Permit consumed regardless of delivery outcome: when the interval
has elapsed, `send_all_alerts` advances `lastSentAt` to the current instant
whatever the configured sinks are — including all-failing sinks and the
zero-sink configuration (where `any_sent = false`) — and a further call
within the next interval is suppressed: it returns all-`false` results and
leaves the limiter state unchanged (no rollback on total delivery failure).
-/
theorem C10_permit_consumed {ε : Type} (m : NotificationManager ε)
    (now t' : ℚ) (r r' : ErrorRecord)
    (h : m.rate_limiter.min_interval ≤ now - m.rate_limiter.last_notification_time) :
    (∀ em sl, (sendAllAlerts (⟨m.rate_limiter, em, sl⟩ : NotificationManager ε) now r).2
      = ⟨m.rate_limiter.min_interval, now⟩) ∧
    (sendAllAlerts (⟨m.rate_limiter, none, none⟩ : NotificationManager ε) now r).1
      = ⟨false, false, false⟩ ∧
    (t' - now < m.rate_limiter.min_interval →
      sendAllAlerts (⟨⟨m.rate_limiter.min_interval, now⟩, m.email_notifier,
          m.slack_notifier⟩ : NotificationManager ε) t' r'
        = (⟨false, false, false⟩, ⟨m.rate_limiter.min_interval, now⟩)) := by
  have hgate : shouldSendNotification m.rate_limiter now =
      (true, ⟨m.rate_limiter.min_interval, now⟩) := by
    unfold shouldSendNotification
    rw [if_pos h]
  refine ⟨?_, ?_, ?_⟩
  · intro em sl
    simp [sendAllAlerts, hgate]
  · simp [sendAllAlerts, hgate, sendEmailAlert, sendSlackAlert]
  · intro ht'
    have hdeny : shouldSendNotification ⟨m.rate_limiter.min_interval, now⟩ t' =
        (false, ⟨m.rate_limiter.min_interval, now⟩) := by
      unfold shouldSendNotification
      rw [if_neg (not_le.mpr ht')]
    simp [sendAllAlerts, hdeny]

/-- Witness for C10: fresh limiter with interval 300, permit granted at 1000
with zero sinks configured; the state still advances and a call at 1100 is
suppressed. -/
theorem C10_permit_consumed_witness :
    (sendAllAlerts (⟨⟨300, 0⟩, none, none⟩ : NotificationManager Unit) 1000
        ⟨[], [], [], [], [], []⟩).2 = ⟨300, 1000⟩ ∧
    (sendAllAlerts (⟨⟨300, 0⟩, none, none⟩ : NotificationManager Unit) 1000
        ⟨[], [], [], [], [], []⟩).1 = ⟨false, false, false⟩ ∧
    sendAllAlerts (⟨⟨300, 1000⟩, none, none⟩ : NotificationManager Unit) 1100
        ⟨[], [], [], [], [], []⟩
      = (⟨false, false, false⟩, ⟨300, 1000⟩) := by
  have h := C10_permit_consumed (⟨⟨300, 0⟩, none, none⟩ : NotificationManager Unit)
    1000 1100 ⟨[], [], [], [], [], []⟩ ⟨[], [], [], [], [], []⟩ (by norm_num)
  exact ⟨h.1 none none, h.2.1, h.2.2 (by norm_num)⟩

/-- One change event on an append-only file never looks at the first
`c₀.length` characters once the offset is at least `c₀.length`: the result is
unchanged when the initial segment is replaced by any other segment of the
same length, and the offset invariants are preserved. -/
theorem onModified_drop_indep (st : TailerState) (c₀ c₀' J : List Char)
    (hlen : c₀.length = c₀'.length)
    (hlo : c₀.length ≤ st.lastPosition)
    (hhi : st.lastPosition ≤ c₀.length + J.length) :
    onModified st (c₀ ++ J) = onModified st (c₀' ++ J) ∧
    c₀.length ≤ (onModified st (c₀ ++ J)).1.lastPosition ∧
    (onModified st (c₀ ++ J)).1.lastPosition ≤ c₀.length + J.length := by
  have hlenA : (c₀ ++ J).length = c₀.length + J.length := List.length_append _ _
  have hlenB : (c₀' ++ J).length = c₀.length + J.length := by
    rw [List.length_append, hlen]
  have hnotruncA : ¬((c₀ ++ J).length < st.lastPosition) := by omega
  have hnotruncB : ¬((c₀' ++ J).length < st.lastPosition) := by omega
  have hdropA : (c₀ ++ J).drop st.lastPosition = J.drop (st.lastPosition - c₀.length) := by
    rw [List.drop_append_eq_append_drop, List.drop_eq_nil_of_le (by omega),
      List.nil_append]
  have hdropB : (c₀' ++ J).drop st.lastPosition = J.drop (st.lastPosition - c₀.length) := by
    rw [List.drop_append_eq_append_drop, List.drop_eq_nil_of_le (by omega),
      List.nil_append, hlen]
  simp only [onModified, if_neg hnotruncA, if_neg hnotruncB]
  by_cases hle : (c₀ ++ J).length ≤ st.lastPosition
  · have hle' : (c₀' ++ J).length ≤ st.lastPosition := by omega
    simp only [if_pos hle, if_pos hle']
    exact ⟨trivial, hlo, by omega⟩
  · have hle' : ¬((c₀' ++ J).length ≤ st.lastPosition) := by omega
    simp only [if_neg hle, if_neg hle']
    refine ⟨?_, ?_, ?_⟩
    · rw [hdropA, hdropB, hlenA, hlenB]
    · simp only [hlenA]
      omega
    · simp only [hlenA]
      omega

/-- Over an arbitrary run of appends and change events, the emitted output and
the final offset do not depend on the bytes of the file's initial segment, as
long as the starting offset is at least that segment's length. -/
theorem runAppends_indep (chunks : List (List Char)) :
    ∀ (c₀ c₀' J : List Char) (st : TailerState),
      c₀.length = c₀'.length →
      c₀.length ≤ st.lastPosition →
      st.lastPosition ≤ c₀.length + J.length →
      (runAppends (st, c₀ ++ J) chunks).2 = (runAppends (st, c₀' ++ J) chunks).2 ∧
      (runAppends (st, c₀ ++ J) chunks).1.1 = (runAppends (st, c₀' ++ J) chunks).1.1 := by
  induction chunks with
  | nil =>
    intro c₀ c₀' J st _ _ _
    exact ⟨rfl, rfl⟩
  | cons chunk rest ih =>
    intro c₀ c₀' J st hlen hlo hhi
    have hhi' : st.lastPosition ≤ c₀.length + (J ++ chunk).length := by
      rw [List.length_append]
      omega
    obtain ⟨hstep, hlo2, hhi2⟩ :=
      onModified_drop_indep st c₀ c₀' (J ++ chunk) hlen hlo hhi'
    obtain ⟨ihout, ihst⟩ :=
      ih c₀ c₀' (J ++ chunk) (onModified st (c₀ ++ (J ++ chunk))).1 hlen hlo2 hhi2
    have e1 : (c₀ ++ J) ++ chunk = c₀ ++ (J ++ chunk) := List.append_assoc _ _ _
    have e2 : (c₀' ++ J) ++ chunk = c₀' ++ (J ++ chunk) := List.append_assoc _ _ _
    constructor
    · simp only [runAppends, e1, e2, ← hstep]
      exact congrArg _ ihout
    · simp only [runAppends, e1, e2, ← hstep]
      exact ihst

/-- C8. No-replay invariant: `lastReadOffset` is initialized at construction
to the file's current size, and over every append-only run the emitted output
is a function of the appended content only — replacing the content present at
construction by any other content of the same length changes nothing in what
is emitted, i.e. the pre-existing bytes are never read, let alone emitted;
only content appended after monitoring starts determines the emissions. -/
theorem C8_no_replay (c₀ c₀' : List Char) (chunks : List (List Char))
    (hlen : c₀.length = c₀'.length) :
    initTailer c₀ = ⟨c₀.length⟩ ∧
    (runAppends (initTailer c₀, c₀) chunks).2 =
      (runAppends (initTailer c₀', c₀') chunks).2 := by
  refine ⟨rfl, ?_⟩
  have h := runAppends_indep chunks c₀ c₀' [] ⟨c₀.length⟩ hlen (le_refl _) (by simp)
  simpa [initTailer, hlen] using h.1

/-- Witness for C8: the run over a 17-character initial file with one
appended chunk emits the same lines as the run over a replaced 17-character
initial file. -/
theorem C8_no_replay_witness :
    initTailer "old ERROR content".data = ⟨"old ERROR content".data.length⟩ ∧
    (runAppends (initTailer "old ERROR content".data, "old ERROR content".data)
        ["\nERROR new\n".data]).2 =
      (runAppends (initTailer "xxxxxxxxxxxxxxxxx".data, "xxxxxxxxxxxxxxxxx".data)
        ["\nERROR new\n".data]).2 :=
  C8_no_replay "old ERROR content".data "xxxxxxxxxxxxxxxxx".data
    ["\nERROR new\n".data] (by decide)

end LogMonitor
